import Mathlib

set_option maxHeartbeats 1000000

/-!
Shallow embedding of the VibeDB schema-evolution engine: the identifier
validator, type inferencer, schema cache and migration executor from
src/guard.rs, src/inference.rs, src/error.rs and src/db.rs.

Rust strings are modelled as `List Char` (a list of Unicode scalar values);
`utf8Len` recovers the Rust byte length (`str::len`).  JSON documents follow
serde_json's data model, with numbers kept in serde_json's internal
representation (u64 / i64 / finite f64, the latter's exact value being a
rational).  The SQLite engine underneath the guard is modelled by a catalog
mapping table names to column lists, with DDL semantics (CREATE TABLE IF NOT
EXISTS, ALTER TABLE ADD COLUMN failing on a duplicate column) made explicit.
-/

/-- Byte size of one scalar value in UTF-8, as Rust counts it. -/
def utf8Size (c : Char) : Nat :=
  if c.toNat ≤ 127 then 1
  else if c.toNat ≤ 2047 then 2
  else if c.toNat ≤ 65535 then 3
  else 4

/-- Rust `str::len`: the length of the string in UTF-8 bytes. -/
def utf8Len (s : List Char) : Nat := (s.map utf8Size).sum

/-- Rust `char::is_ascii_alphabetic`. -/
def isAsciiAlpha (c : Char) : Bool :=
  (97 ≤ c.toNat && c.toNat ≤ 122) || (65 ≤ c.toNat && c.toNat ≤ 90)

/-- Rust `char::is_ascii_alphanumeric`. -/
def isAsciiAlphanum (c : Char) : Bool :=
  isAsciiAlpha c || (48 ≤ c.toNat && c.toNat ≤ 57)

/-- ASCII uppercase of one character (Rust `str::to_uppercase` restricted to
the ASCII range, which is all that can reach the reserved-keyword check). -/
def asciiUpper (c : Char) : Char :=
  if 97 ≤ c.toNat && c.toNat ≤ 122 then Char.ofNat (c.toNat - 32) else c

/-- The IDENTIFIER_REGEX from guard.rs: a full match of
the pattern  caret [a-zA-Z_][a-zA-Z0-9_]* dollar . -/
def matchesIdentRegex : List Char → Bool
  | [] => false
  | c :: rest => (isAsciiAlpha c || c == '_') && rest.all (fun d => isAsciiAlphanum d || d == '_')

/-- RESERVED_KEYWORDS from guard.rs, in source order. -/
def RESERVED_KEYWORDS : List (List Char) :=
  ["SELECT".data, "FROM".data, "WHERE".data, "INSERT".data, "UPDATE".data,
   "DELETE".data, "CREATE".data, "TABLE".data, "DROP".data, "ALTER".data,
   "INDEX".data, "AND".data, "OR".data, "NOT".data, "NULL".data,
   "TRUE".data, "FALSE".data, "PRIMARY".data, "KEY".data, "FOREIGN".data,
   "REFERENCES".data, "UNIQUE".data, "CHECK".data, "DEFAULT".data, "AS".data,
   "ORDER".data, "BY".data, "GROUP".data, "HAVING".data, "LIMIT".data,
   "OFFSET".data, "JOIN".data, "LEFT".data, "RIGHT".data, "INNER".data,
   "OUTER".data, "ON".data, "CASE".data, "WHEN".data, "THEN".data,
   "ELSE".data, "END".data, "UNION".data, "ALL".data, "DISTINCT".data,
   "VALUES".data, "SET".data, "IN".data, "BETWEEN".data, "LIKE".data,
   "IS".data, "EXISTS".data, "EXCEPT".data, "INTERSECT".data]

/-- MAX_COLUMNS_PER_TABLE from guard.rs. -/
def MAX_COLUMNS_PER_TABLE : Nat := 1000

/-- The VibeError enum from error.rs (payloads of foreign error types are
kept as their display strings, as the From impls produce). -/
inductive VError where
  | database : String → VError
  | json : String → VError
  | invalidIdentifier : String → VError
  | schema : String → VError
  | columnLimitExceeded : String → VError
  | tableNotFound : String → VError
  | invalidPayload : String → VError
  | migrationFailed : String → VError
  | internal : String → VError
  | unauthorized : String → VError
  | conflict : String → VError
  | notFound : String → VError
  | storage : String → VError
deriving DecidableEq, Repr

/-- SchemaGuard::validate_identifier from guard.rs: length check (bytes),
then regex check, then case-insensitive reserved-keyword check. -/
def validate_identifier (name : List Char) : Except VError Unit :=
  if name.isEmpty || utf8Len name > 128 then
    .error (.invalidIdentifier ("Identifier " ++ String.mk name ++ " must be 1-128 characters"))
  else if !matchesIdentRegex name then
    .error (.invalidIdentifier ("Identifier " ++ String.mk name ++
      " contains invalid characters. Use only alphanumeric and underscores, starting with a letter or underscore"))
  else if RESERVED_KEYWORDS.contains (name.map asciiUpper) then
    .error (.invalidIdentifier ("Identifier " ++ String.mk name ++ " is a SQL reserved keyword"))
  else
    .ok ()

/-- First-position rewrite of SchemaGuard::sanitize_identifier. -/
def sanitizeHeadChar (c : Char) : Char :=
  if isAsciiAlpha c || c == '_' then c else '_'

/-- Later-position rewrite of SchemaGuard::sanitize_identifier. -/
def sanitizeTailChar (c : Char) : Char :=
  if isAsciiAlphanum c || c == '_' then c else '_'

/-- SchemaGuard::sanitize_identifier from guard.rs: position-dependent
character rewrite, then truncation to 128 characters. -/
def sanitize_identifier (name : List Char) : List Char :=
  (match name with
   | [] => []
   | c :: rest => sanitizeHeadChar c :: rest.map sanitizeTailChar).take 128

lemma utf8Size_eq_one_of_ascii {c : Char} (h : c.toNat ≤ 127) : utf8Size c = 1 := by
  simp [utf8Size, h]

lemma isAsciiAlpha_toNat {c : Char} (h : isAsciiAlpha c = true) : c.toNat ≤ 127 := by
  simp only [isAsciiAlpha, Bool.or_eq_true, Bool.and_eq_true, decide_eq_true_eq] at h
  omega

lemma isAsciiAlphanum_toNat {c : Char} (h : isAsciiAlphanum c = true) : c.toNat ≤ 127 := by
  simp only [isAsciiAlphanum, isAsciiAlpha, Bool.or_eq_true, Bool.and_eq_true,
    decide_eq_true_eq] at h
  rcases h with h | h
  · rcases h with h | h <;> omega
  · omega

lemma headChar_utf8Size {c : Char} (h : (isAsciiAlpha c || c == '_') = true) :
    utf8Size c = 1 := by
  rcases Bool.or_eq_true_iff.mp h with h' | h'
  · exact utf8Size_eq_one_of_ascii (isAsciiAlpha_toNat h')
  · have : c = '_' := by simpa using h'
    subst this; rfl

lemma tailChar_utf8Size {c : Char} (h : (isAsciiAlphanum c || c == '_') = true) :
    utf8Size c = 1 := by
  rcases Bool.or_eq_true_iff.mp h with h' | h'
  · exact utf8Size_eq_one_of_ascii (isAsciiAlphanum_toNat h')
  · have : c = '_' := by simpa using h'
    subst this; rfl

lemma sum_utf8_eq_length {l : List Char} (h : ∀ d ∈ l, utf8Size d = 1) :
    (l.map utf8Size).sum = l.length := by
  induction l with
  | nil => rfl
  | cons d ds ih =>
    simp only [List.map_cons, List.sum_cons, List.length_cons,
      h d (List.mem_cons_self d ds), ih (fun e he => h e (List.mem_cons_of_mem d he))]
    omega

lemma regex_utf8Len {name : List Char} (h : matchesIdentRegex name = true) :
    utf8Len name = name.length := by
  match name with
  | [] => simp [matchesIdentRegex] at h
  | c :: rest =>
    simp only [matchesIdentRegex, Bool.and_eq_true] at h
    obtain ⟨hc, hrest⟩ := h
    have hrest' : ∀ d ∈ rest, utf8Size d = 1 := by
      intro d hd
      exact tailChar_utf8Size (by simpa using List.all_eq_true.mp hrest d hd)
    simp only [utf8Len, List.map_cons, List.sum_cons, headChar_utf8Size hc,
      List.length_cons, sum_utf8_eq_length hrest']
    omega

instance {α β : Type} [DecidableEq α] [DecidableEq β] : DecidableEq (Except α β) := by
  intro a b
  cases a <;> cases b
  case error.error x y =>
    exact if h : x = y then .isTrue (by rw [h]) else .isFalse (by simp [h])
  case ok.ok x y =>
    exact if h : x = y then .isTrue (by rw [h]) else .isFalse (by simp [h])
  case error.ok x y => exact .isFalse (by simp)
  case ok.error x y => exact .isFalse (by simp)

lemma reserved_contains_iff (x : List Char) :
    RESERVED_KEYWORDS.contains x = true ↔ x ∈ RESERVED_KEYWORDS := by
  simp [List.contains]

/-- C3: `validate_identifier` accepts exactly the strings of 1 to 128
characters that fully match the identifier pattern and whose uppercase form
is not a reserved keyword; in particular SELECT, 1abc, a-b and the empty
string are rejected while user_1 is accepted. -/
theorem validate_identifier_characterization (name : List Char) :
    ((validate_identifier name = .ok ()) ↔
      (1 ≤ name.length ∧ name.length ≤ 128 ∧ matchesIdentRegex name = true ∧
        (name.map asciiUpper) ∉ RESERVED_KEYWORDS))
    ∧ validate_identifier "SELECT".data ≠ .ok ()
    ∧ validate_identifier "1abc".data ≠ .ok ()
    ∧ validate_identifier "a-b".data ≠ .ok ()
    ∧ validate_identifier [] ≠ .ok ()
    ∧ validate_identifier "user_1".data = .ok () := by
  refine ⟨?_, by decide, by decide, by decide, by decide, by decide⟩
  unfold validate_identifier
  split_ifs with h1 h2 h3
  · simp only [Bool.or_eq_true, List.isEmpty_iff, decide_eq_true_eq] at h1
    constructor
    · intro h; exact absurd h (by simp)
    · rintro ⟨hlen1, hlen2, hre, -⟩
      exfalso
      rcases h1 with h1 | h1
      · subst h1; simp at hlen1
      · rw [regex_utf8Len hre] at h1; omega
  · simp only [Bool.not_eq_eq_eq_not, Bool.not_true] at h2
    constructor
    · intro h; exact absurd h (by simp)
    · rintro ⟨-, -, hre, -⟩
      rw [h2] at hre; cases hre
  · constructor
    · intro h; exact absurd h (by simp)
    · rintro ⟨-, -, -, hres⟩
      exact absurd ((reserved_contains_iff _).mp h3) hres
  · simp only [Bool.or_eq_true, List.isEmpty_iff, decide_eq_true_eq, not_or, not_lt] at h1
    obtain ⟨hne, hlen⟩ := h1
    simp only [Bool.not_eq_eq_eq_not, Bool.not_true, Bool.not_eq_false] at h2
    constructor
    · intro _
      refine ⟨?_, ?_, h2, ?_⟩
      · cases name with
        | nil => exact absurd rfl hne
        | cons c cs => simp
      · rw [← regex_utf8Len h2]; exact hlen
      · intro hmem
        exact h3 ((reserved_contains_iff _).mpr hmem)
    · intro _; rfl

lemma sanitizeHeadChar_valid (c : Char) :
    (isAsciiAlpha (sanitizeHeadChar c) || sanitizeHeadChar c == '_') = true := by
  unfold sanitizeHeadChar
  by_cases h : (isAsciiAlpha c || c == '_') = true
  · rw [if_pos h]; exact h
  · rw [if_neg h]; decide

lemma sanitizeTailChar_valid (c : Char) :
    (isAsciiAlphanum (sanitizeTailChar c) || sanitizeTailChar c == '_') = true := by
  unfold sanitizeTailChar
  by_cases h : (isAsciiAlphanum c || c == '_') = true
  · rw [if_pos h]; exact h
  · rw [if_neg h]; decide

lemma sanitizeHeadChar_idem (c : Char) :
    sanitizeHeadChar (sanitizeHeadChar c) = sanitizeHeadChar c := by
  by_cases h : (isAsciiAlpha c || c == '_') = true
  · rw [show sanitizeHeadChar c = c from if_pos h, show sanitizeHeadChar c = c from if_pos h]
  · rw [show sanitizeHeadChar c = '_' from if_neg h]; decide

lemma sanitizeTailChar_idem (c : Char) :
    sanitizeTailChar (sanitizeTailChar c) = sanitizeTailChar c := by
  by_cases h : (isAsciiAlphanum c || c == '_') = true
  · rw [show sanitizeTailChar c = c from if_pos h, show sanitizeTailChar c = c from if_pos h]
  · rw [show sanitizeTailChar c = '_' from if_neg h]; decide

lemma sanitize_identifier_regex {x : List Char} (hne : x ≠ []) :
    matchesIdentRegex (sanitize_identifier x) = true := by
  match x with
  | [] => exact absurd rfl hne
  | c :: rest =>
    show matchesIdentRegex ((sanitizeHeadChar c :: rest.map sanitizeTailChar).take 128) = true
    rw [List.take_succ_cons]
    simp only [matchesIdentRegex, Bool.and_eq_true]
    refine ⟨sanitizeHeadChar_valid c, ?_⟩
    rw [List.all_eq_true]
    intro d hd
    have hd' : d ∈ rest.map sanitizeTailChar := List.mem_of_mem_take hd
    obtain ⟨e, -, rfl⟩ := List.mem_map.mp hd'
    exact sanitizeTailChar_valid e

/-- C4 (amended): on every non-empty input whose sanitized form is not a
reserved keyword, `sanitize_identifier` produces a string accepted by
`validate_identifier`; the result is always at most 128 characters long. -/
theorem sanitize_identifier_valid (x : List Char) (hne : x ≠ [])
    (hnr : ((sanitize_identifier x).map asciiUpper) ∉ RESERVED_KEYWORDS) :
    validate_identifier (sanitize_identifier x) = .ok () ∧
      (sanitize_identifier x).length ≤ 128 := by
  have hlen : (sanitize_identifier x).length ≤ 128 := by
    unfold sanitize_identifier
    exact le_trans (le_of_eq (List.length_take _ _)) (min_le_left _ _)
  refine ⟨?_, hlen⟩
  have hre := sanitize_identifier_regex hne
  rw [(validate_identifier_characterization (sanitize_identifier x)).1]
  refine ⟨?_, hlen, hre, hnr⟩
  cases hs : sanitize_identifier x with
  | nil => rw [hs] at hre; cases hre
  | cons c cs => simp

/-- Witness for C4: a concrete invalid string is sanitized into something
the validator accepts. -/
theorem sanitize_identifier_valid_witness :
    validate_identifier (sanitize_identifier "9user name!".data) = .ok () ∧
      (sanitize_identifier "9user name!".data).length ≤ 128 :=
  sanitize_identifier_valid "9user name!".data (by decide) (by decide)

/-- C4 (counterexample): the claim fails as stated — the empty string
sanitizes to the empty string and SELECT sanitizes to itself, and both
results are rejected by `validate_identifier`. -/
theorem sanitize_identifier_not_always_valid :
    sanitize_identifier [] = [] ∧
    validate_identifier (sanitize_identifier []) ≠ .ok () ∧
    sanitize_identifier "SELECT".data = "SELECT".data ∧
    validate_identifier (sanitize_identifier "SELECT".data) ≠ .ok () := by
  refine ⟨rfl, by decide, by decide, by decide⟩

/-- C5: `sanitize_identifier` is idempotent. -/
theorem sanitize_identifier_idempotent (x : List Char) :
    sanitize_identifier (sanitize_identifier x) = sanitize_identifier x := by
  match x with
  | [] => rfl
  | c :: rest =>
    show sanitize_identifier ((sanitizeHeadChar c :: rest.map sanitizeTailChar).take 128) = _
    rw [List.take_succ_cons]
    show (sanitizeHeadChar (sanitizeHeadChar c) ::
        ((rest.map sanitizeTailChar).take 127).map sanitizeTailChar).take 128 = _
    rw [sanitizeHeadChar_idem, ← List.map_take, List.map_map]
    have hmap : rest.map (sanitizeTailChar ∘ sanitizeTailChar) = rest.map sanitizeTailChar :=
      List.map_congr_left (fun e _ => sanitizeTailChar_idem e)
    rw [List.map_take, hmap, List.take_succ_cons, List.take_take, min_self]
    show _ = (sanitizeHeadChar c :: rest.map sanitizeTailChar).take 128
    rw [List.take_succ_cons]

/-- The SqliteType enum from inference.rs. -/
inductive SqliteType where
  | integer
  | real
  | text
  | blob
  | null
deriving DecidableEq, Repr

/-- SqliteType::as_sql from inference.rs. -/
def SqliteType.as_sql : SqliteType → String
  | .integer => "INTEGER"
  | .real => "REAL"
  | .text => "TEXT"
  | .blob => "BLOB"
  | .null => "NULL"

/-- SqliteType::can_promote_to from inference.rs, arms in source order. -/
def SqliteType.can_promote_to (a other : SqliteType) : Bool :=
  if a = other then true
  else
    match a, other with
    | .integer, .real => true
    | _, .text => true
    | .null, _ => true
    | _, _ => false

/-- SqliteType::common_type from inference.rs, arms in source order. -/
def SqliteType.common_type (a b : SqliteType) : SqliteType :=
  if a = b then a
  else
    match a, b with
    | .null, other => other
    | other, .null => other
    | .integer, .real => .real
    | .real, .integer => .real
    | _, _ => .text

/-- serde_json's internal number representation: a non-negative integer
stored as u64, a negative integer stored as i64, or a finite f64 whose exact
value is the given rational (every finite double is a rational). -/
inductive JNum where
  | posInt : Nat → JNum
  | negInt : Int → JNum
  | float : ℚ → JNum
deriving DecidableEq, Repr

/-- Largest u64 value. -/
def u64Max : Nat := 18446744073709551615

/-- Largest i64 value. -/
def i64Max : Nat := 9223372036854775807

/-- Smallest i64 value. -/
def i64Min : Int := -9223372036854775808

/-- Representation invariant serde_json maintains for its numbers. -/
def JNum.wellFormed : JNum → Prop
  | .posInt n => n ≤ u64Max
  | .negInt n => i64Min ≤ n ∧ n < 0
  | .float _ => True

/-- The exact numeric value of a serde_json number. -/
def JNum.value : JNum → ℚ
  | .posInt n => (n : ℚ)
  | .negInt n => (n : ℚ)
  | .float q => q

/-- serde_json Number::is_i64: decided by the representation, false for any
float-represented number regardless of its value. -/
def JNum.is_i64 : JNum → Bool
  | .posInt n => n ≤ i64Max
  | .negInt _ => true
  | .float _ => false

/-- serde_json Number::is_u64: decided by the representation. -/
def JNum.is_u64 : JNum → Bool
  | .posInt _ => true
  | .negInt _ => false
  | .float _ => false

/-- serde_json Value. Object keys are kept in insertion order, as a list of
key-value pairs. -/
inductive JValue where
  | null : JValue
  | bool : Bool → JValue
  | num : JNum → JValue
  | str : List Char → JValue
  | arr : List JValue → JValue
  | obj : List (List Char × JValue) → JValue

/-- Value::is_null. -/
def JValue.is_null : JValue → Bool
  | .null => true
  | _ => false

/-- The `matches!(val, Value::Object(_) | Value::Array(_))` test used by
infer_schema for the nested flag. -/
def JValue.isComposite : JValue → Bool
  | .obj _ => true
  | .arr _ => true
  | _ => false

/-- infer_type from inference.rs. -/
def infer_type : JValue → SqliteType
  | .null => .null
  | .bool _ => .integer
  | .num n => if n.is_i64 || n.is_u64 then .integer else .real
  | .str _ => .text
  | .obj _ => .text
  | .arr _ => .text

/-- InferredColumn from inference.rs. -/
structure InferredColumn where
  name : List Char
  sqlite_type : SqliteType
  is_nested : Bool
  is_nullable : Bool
deriving DecidableEq, Repr

/-- InferredColumn::new: dynamically added columns are always nullable. -/
def InferredColumn.new (name : List Char) (t : SqliteType) (nested : Bool) : InferredColumn :=
  ⟨name, t, nested, true⟩

/-- The column list infer_schema builds from an object's fields: null-valued
keys are skipped, each remaining key becomes one InferredColumn. -/
def inferColumns (fields : List (List Char × JValue)) : List InferredColumn :=
  (fields.filter (fun p => !p.2.is_null)).map
    (fun p => InferredColumn.new p.1 (infer_type p.2) p.2.isComposite)

/-- infer_schema from inference.rs. -/
def infer_schema : JValue → Except VError (List InferredColumn)
  | .obj fields => .ok (inferColumns fields)
  | _ => .error (.invalidPayload "Payload must be a JSON object")

/-- The and_modify branch of infer_batch_schema: promote the type via
common_type and accumulate the nested flag, keeping the other fields of the
existing entry. -/
def mergeColumn (existing incoming : InferredColumn) : InferredColumn :=
  { existing with
      sqlite_type := SqliteType.common_type existing.sqlite_type incoming.sqlite_type,
      is_nested := existing.is_nested || incoming.is_nested }

/-- One HashMap::entry step of infer_batch_schema: and_modify when present,
or_insert when absent. -/
def entryStep (o : Option InferredColumn) (col : InferredColumn) : InferredColumn :=
  match o with
  | some existing => mergeColumn existing col
  | none => col

/-- The unified-columns HashMap is modelled as a lookup function; this is one
`unified_columns.entry(col.name).and_modify(...).or_insert(col)` update. -/
def unifiedInsert (m : List Char → Option InferredColumn) (col : InferredColumn) :
    List Char → Option InferredColumn :=
  fun k => if k = col.name then some (entryStep (m col.name) col) else m k

/-- The empty unified-columns map. -/
def unifiedEmpty : List Char → Option InferredColumn := fun _ => none

/-- The body of the loop of infer_batch_schema for one document. -/
def batchStep (m : List Char → Option InferredColumn) (v : JValue) :
    Except VError (List Char → Option InferredColumn) :=
  (infer_schema v).map (fun cols => cols.foldl unifiedInsert m)

/-- infer_batch_schema from inference.rs, as the mapping from column name to
unified inferred column (the Rust function returns the values of this map in
unspecified HashMap order). -/
def infer_batch_schema_map (values : List JValue) :
    Except VError (List Char → Option InferredColumn) :=
  values.foldlM batchStep unifiedEmpty

/-- C7 (counterexample): a well-formed serde_json number represented as a
float (as the literal 5.0 parses) whose value has no fractional part and
fits the native integer range is nevertheless mapped to Real, so the
value-level "exactly when" of the claim fails. -/
theorem infer_type_integral_float_is_real :
    (JNum.float 5).wellFormed ∧
    (JNum.float 5).value.den = 1 ∧
    i64Min ≤ (JNum.float 5).value.num ∧
    (JNum.float 5).value.num ≤ (u64Max : Int) ∧
    infer_type (.num (.float 5)) = .real ∧
    infer_type (.num (.float 5)) ≠ .integer := by
  refine ⟨trivial, by decide, by decide, by decide, rfl, by decide⟩

lemma natCast_rat_den (n : Nat) : ((n : ℚ)).den = 1 := Rat.den_natCast n

lemma natCast_rat_num (n : Nat) : ((n : ℚ)).num = (n : Int) := Rat.num_natCast n

/-- C7 (amended): infer_type maps null to Null, booleans to Integer,
strings, objects and arrays to Text (composites carrying the nested flag in
infer_schema); a number maps to Integer exactly when serde_json represents
it as an integer (is_i64 or is_u64, i.e. it was parsed from an integer
literal in the native range), and a float-represented number maps to Real
even when its value is integral; in particular a well-formed number whose
value has no fractional part but lies outside the native integer range is
necessarily float-represented and maps to Real. -/
theorem infer_type_mapping (n : JNum) (v : JValue) (b : Bool) (s : List Char)
    (fields : List (List Char × JValue)) (xs : List JValue) (hwf : n.wellFormed) :
    infer_type .null = .null
    ∧ infer_type (.bool b) = .integer
    ∧ (infer_type (.num n) = .integer ↔ (n.is_i64 || n.is_u64) = true)
    ∧ (∀ q : ℚ, infer_type (.num (.float q)) = .real)
    ∧ (n.value.den = 1 → (n.value.num < i64Min ∨ (u64Max : Int) < n.value.num) →
        infer_type (.num n) = .real)
    ∧ infer_type (.str s) = .text
    ∧ infer_type (.obj fields) = .text
    ∧ infer_type (.arr xs) = .text
    ∧ (v.isComposite = true → infer_type v = .text)
    ∧ (∀ (k : List Char) (w : JValue), w.is_null = false →
        infer_schema (.obj [(k, w)]) =
          .ok [InferredColumn.new k (infer_type w) w.isComposite]) := by
  refine ⟨rfl, rfl, ?_, fun q => rfl, ?_, rfl, rfl, rfl, ?_, ?_⟩
  · cases n with
    | posInt m => simp [infer_type, JNum.is_i64, JNum.is_u64]
    | negInt m => simp [infer_type, JNum.is_i64, JNum.is_u64]
    | float q => simp [infer_type, JNum.is_i64, JNum.is_u64]
  · intro hden hrange
    cases n with
    | posInt m =>
      exfalso
      simp only [JNum.value, natCast_rat_num] at hrange
      have hm : m ≤ u64Max := hwf
      rcases hrange with h | h
      · have : (0 : Int) ≤ (m : Int) := Int.natCast_nonneg m
        simp only [i64Min] at h
        omega
      · have : (m : Int) ≤ (u64Max : Int) := by exact_mod_cast hm
        omega
    | negInt m =>
      exfalso
      simp only [JNum.value, Rat.num_intCast] at hrange
      obtain ⟨h1, h2⟩ := hwf
      rcases hrange with h | h
      · omega
      · have : (0:Int) ≤ (u64Max : Int) := by positivity
        omega
    | float q => rfl
  · intro hcomp
    cases v <;> simp [JValue.isComposite] at hcomp ⊢ <;> rfl
  · intro k w hw
    simp [infer_schema, inferColumns, hw]

/-- Witness for C7 (amended), applied at an out-of-range float, an array, a
boolean, a string and a one-field object. -/
theorem infer_type_mapping_witness :
    infer_type .null = .null
    ∧ infer_type (.bool true) = .integer
    ∧ (infer_type (.num (.posInt 7)) = .integer ↔
        ((JNum.posInt 7).is_i64 || (JNum.posInt 7).is_u64) = true)
    ∧ (∀ q : ℚ, infer_type (.num (.float q)) = .real)
    ∧ ((JNum.posInt 7).value.den = 1 →
        ((JNum.posInt 7).value.num < i64Min ∨ (u64Max : Int) < (JNum.posInt 7).value.num) →
        infer_type (.num (.posInt 7)) = .real)
    ∧ infer_type (.str "x".data) = .text
    ∧ infer_type (.obj []) = .text
    ∧ infer_type (.arr []) = .text
    ∧ ((JValue.arr []).isComposite = true → infer_type (.arr []) = .text)
    ∧ (∀ (k : List Char) (w : JValue), w.is_null = false →
        infer_schema (.obj [(k, w)]) =
          .ok [InferredColumn.new k (infer_type w) w.isComposite]) :=
  infer_type_mapping (.posInt 7) (.arr []) true "x".data [] []
    (show (7 : Nat) ≤ u64Max by decide)

lemma common_type_assoc (a b c : SqliteType) :
    SqliteType.common_type (SqliteType.common_type a b) c
      = SqliteType.common_type a (SqliteType.common_type b c) := by
  cases a <;> cases b <;> cases c <;> rfl

lemma common_type_comm (a b : SqliteType) :
    SqliteType.common_type a b = SqliteType.common_type b a := by
  cases a <;> cases b <;> rfl

lemma common_type_right_comm (t x y : SqliteType) :
    SqliteType.common_type (SqliteType.common_type t x) y
      = SqliteType.common_type (SqliteType.common_type t y) x := by
  cases t <;> cases x <;> cases y <;> rfl

lemma mergeColumn_comm {x y : InferredColumn} (hname : x.name = y.name)
    (hnul : x.is_nullable = y.is_nullable) :
    mergeColumn x y = mergeColumn y x := by
  cases x; cases y
  simp only [mergeColumn] at *
  simp_all [common_type_comm, Bool.or_comm]

lemma mergeColumn_assoc (e x y : InferredColumn) :
    mergeColumn (mergeColumn e x) y = mergeColumn (mergeColumn e y) x := by
  cases e
  simp [mergeColumn, common_type_right_comm, Bool.or_right_comm]

lemma unifiedInsert_comm {x y : InferredColumn}
    (hnul : x.name = y.name → x.is_nullable = y.is_nullable)
    (m : List Char → Option InferredColumn) :
    unifiedInsert (unifiedInsert m x) y = unifiedInsert (unifiedInsert m y) x := by
  funext k
  by_cases hxy : x.name = y.name
  · have hnul' := hnul hxy
    simp only [unifiedInsert, hxy]
    by_cases hk : k = y.name
    · simp only [hk, if_pos rfl]
      cases hm : m y.name with
      | none => simp [entryStep, mergeColumn_comm hxy hnul']
      | some e => simp [entryStep, mergeColumn_assoc]
    · simp [if_neg hk]
  · have hyx : ¬ y.name = x.name := fun h => hxy h.symm
    by_cases hkx : k = x.name
    · have hky : ¬ k = y.name := by rw [hkx]; exact hxy
      simp [unifiedInsert, hkx, hky, hxy]
    · by_cases hky : k = y.name
      · simp [unifiedInsert, hkx, hky, hyx]
      · simp [unifiedInsert, hkx, hky]

lemma foldl_unifiedInsert_perm {l₁ l₂ : List InferredColumn} (hp : l₁.Perm l₂)
    (hnul : ∀ c ∈ l₁, c.is_nullable = true) (m : List Char → Option InferredColumn) :
    l₁.foldl unifiedInsert m = l₂.foldl unifiedInsert m :=
  hp.foldl_eq'
    (fun x hx y hy z =>
      unifiedInsert_comm (fun _ => (hnul x hx).trans (hnul y hy).symm) z)
    m

/-- Total version of the per-document column list: objects yield their
inferred columns, anything else contributes nothing (those cases make
infer_batch_schema fail instead). -/
def colsOfValue : JValue → List InferredColumn
  | .obj fields => inferColumns fields
  | _ => []

lemma colsOfValue_nullable {v : JValue} {c : InferredColumn} (hc : c ∈ colsOfValue v) :
    c.is_nullable = true := by
  cases v with
  | obj fields =>
    simp only [colsOfValue, inferColumns, List.mem_map] at hc
    obtain ⟨p, -, rfl⟩ := hc
    rfl
  | null => cases hc
  | bool b => cases hc
  | num n => cases hc
  | str s => cases hc
  | arr xs => cases hc

lemma infer_batch_foldlM {vs : List JValue} (h : ∀ v ∈ vs, ∃ fs, v = JValue.obj fs)
    (m : List Char → Option InferredColumn) :
    vs.foldlM batchStep m = .ok ((vs.flatMap colsOfValue).foldl unifiedInsert m) := by
  induction vs generalizing m with
  | nil => rfl
  | cons v t ih =>
    obtain ⟨fs, rfl⟩ := h v (List.mem_cons_self v t)
    rw [List.foldlM_cons]
    show (batchStep m (.obj fs)) >>= (fun m' => t.foldlM batchStep m') = _
    rw [show batchStep m (.obj fs) = .ok ((inferColumns fs).foldl unifiedInsert m) from rfl]
    show t.foldlM batchStep ((inferColumns fs).foldl unifiedInsert m) = _
    rw [ih (fun w hw => h w (List.mem_cons_of_mem _ hw)), List.flatMap_cons,
      List.foldl_append]
    rfl

/-- C6: infer_batch_schema is order-independent — permuting the batch of
object documents yields the same unified column mapping — and common_type is
associative, commutative, and computes the least upper bound of the widening
lattice given by can_promote_to. -/
theorem infer_batch_schema_order_independent (vs₁ vs₂ : List JValue)
    (hp : vs₁.Perm vs₂) (hobj : ∀ v ∈ vs₁, ∃ fields, v = JValue.obj fields) :
    infer_batch_schema_map vs₁ = infer_batch_schema_map vs₂
    ∧ (∀ a b c : SqliteType, SqliteType.common_type (SqliteType.common_type a b) c
        = SqliteType.common_type a (SqliteType.common_type b c))
    ∧ (∀ a b : SqliteType, SqliteType.common_type a b = SqliteType.common_type b a)
    ∧ (∀ a b : SqliteType,
        a.can_promote_to (SqliteType.common_type a b) = true
        ∧ b.can_promote_to (SqliteType.common_type a b) = true
        ∧ ∀ c : SqliteType, a.can_promote_to c = true → b.can_promote_to c = true →
            (SqliteType.common_type a b).can_promote_to c = true) := by
  refine ⟨?_, common_type_assoc, common_type_comm, ?_⟩
  · have hobj₂ : ∀ v ∈ vs₂, ∃ fields, v = JValue.obj fields :=
      fun v hv => hobj v (hp.mem_iff.mpr hv)
    rw [show infer_batch_schema_map vs₁ = vs₁.foldlM batchStep unifiedEmpty from rfl,
      show infer_batch_schema_map vs₂ = vs₂.foldlM batchStep unifiedEmpty from rfl,
      infer_batch_foldlM hobj unifiedEmpty, infer_batch_foldlM hobj₂ unifiedEmpty]
    exact congrArg Except.ok
      (foldl_unifiedInsert_perm (hp.flatMap_right colsOfValue)
        (fun c hc => colsOfValue_nullable (List.mem_flatMap.mp hc).choose_spec.2)
        unifiedEmpty)
  · intro a b
    refine ⟨?_, ?_, ?_⟩
    · cases a <;> cases b <;> rfl
    · cases a <;> cases b <;> rfl
    · intro c h1 h2
      revert h1 h2
      cases a <;> cases b <;> cases c <;> decide

/-- Two concrete documents used in the order-independence witness. -/
def docA : JValue := .obj [("a".data, .num (.posInt 1))]

/-- Second concrete document for the order-independence witness. -/
def docB : JValue := .obj [("a".data, .num (.float (3 / 2))), ("b".data, .str "x".data)]

/-- Witness for C6: the two-document batch gives the same unified mapping in
either order. -/
theorem infer_batch_schema_order_independent_witness :
    infer_batch_schema_map [docA, docB] = infer_batch_schema_map [docB, docA] :=
  (infer_batch_schema_order_independent [docA, docB] [docB, docA]
      (List.Perm.swap docB docA [])
      (by
        intro v hv
        rcases List.mem_cons.mp hv with rfl | hv2
        · exact ⟨_, rfl⟩
        · rcases List.mem_cons.mp hv2 with rfl | hv3
          · exact ⟨_, rfl⟩
          · cases hv3)).1

/-- ColumnInfo from guard.rs. -/
structure ColumnInfo where
  name : List Char
  col_type : String
  notnull : Bool
  pk : Bool
deriving DecidableEq, Repr

/-- Association-list lookup (first match), modelling map access keyed by a
table name. -/
def alookup {α : Type} : List (List Char × α) → List Char → Option α
  | [], _ => none
  | (k', v) :: rest, k => if k' = k then some v else alookup rest k

/-- Association-list removal of every entry with the given key (DashMap
remove). -/
def aremove {α : Type} (m : List (List Char × α)) (k : List Char) :
    List (List Char × α) :=
  m.filter (fun p => decide (p.1 ≠ k))

/-- Association-list insert-or-replace (DashMap insert). -/
def ainsert {α : Type} (m : List (List Char × α)) (k : List Char) (v : α) :
    List (List Char × α) :=
  (k, v) :: aremove m k

/-- Combined state of one SchemaGuard and its VibeStore: the DashMap schema
cache, the SQLite catalog (table name to column list — the storage engine's
truth), and the log of DDL statements the store has committed. -/
structure GuardState where
  cache : List (List Char × List ColumnInfo)
  catalog : List (List Char × List ColumnInfo)
  ddl : List String
deriving DecidableEq, Repr

/-- SchemaGuard::fetch_table_info via PRAGMA table_info: the catalog's
column list, empty when the table does not exist. -/
def fetch_table_info (s : GuardState) (t : List Char) : List ColumnInfo :=
  (alookup s.catalog t).getD []

/-- The base schema the CREATE TABLE of ensure_table installs:
id (integer primary key), created_at, updated_at. -/
def baseColumns : List ColumnInfo :=
  [⟨"id".data, "INTEGER", false, true⟩,
   ⟨"created_at".data, "DATETIME", false, false⟩,
   ⟨"updated_at".data, "DATETIME", false, false⟩]

/-- Executing the CREATE TABLE IF NOT EXISTS statement of ensure_table: a
no-op on the catalog when the table exists, the statement is logged either
way. -/
def execCreateTable (s : GuardState) (t : List Char) : GuardState :=
  { s with
      catalog :=
        match alookup s.catalog t with
        | some _ => s.catalog
        | none => ainsert s.catalog t baseColumns,
      ddl := s.ddl ++ ["CREATE TABLE IF NOT EXISTS " ++ String.mk t] }

/-- SchemaGuard::get_table_schema: a cache hit returns the cached columns;
a miss queries PRAGMA table_info and caches the result only when it is
non-empty. -/
def get_table_schema (s : GuardState) (t : List Char) :
    List ColumnInfo × GuardState :=
  match alookup s.cache t with
  | some cached => (cached, s)
  | none =>
      let columns := fetch_table_info s t
      if columns.isEmpty then (columns, s)
      else (columns, { s with cache := ainsert s.cache t columns })

/-- SchemaGuard::ensure_table: validate the name, return Ok when columns
already exist, otherwise create the base table and invalidate the cache
entry. -/
def ensure_table (s : GuardState) (t : List Char) :
    Except VError Unit × GuardState :=
  match validate_identifier t with
  | .error e => (.error e, s)
  | .ok _ =>
      let r := get_table_schema s t
      if r.1.isEmpty then
        let s2 := execCreateTable r.2 t
        (.ok (), { s2 with cache := aremove s2.cache t })
      else
        (.ok (), r.2)

/-- SQLite compares identifiers case-insensitively over the ASCII range
(sqlite3StrICmp); this is the equality its duplicate-column check uses. -/
def ciEqName (a b : List Char) : Bool :=
  a.map asciiUpper == b.map asciiUpper

/-- Sequential ALTER TABLE ADD COLUMN execution inside the transaction of
add_columns: SQLite rejects a column whose name matches an existing one
case-insensitively; the columns added so far are rolled back by the
enclosing transaction. -/
def applyAlters (cols : List ColumnInfo) :
    List (List Char × String) → Except VError (List ColumnInfo)
  | [] => .ok cols
  | (k, ty) :: rest =>
      if (cols.map ColumnInfo.name).any (fun n => ciEqName n k) then
        .error (.database ("Transaction failed: duplicate column name: " ++ String.mk k))
      else applyAlters (cols ++ [⟨k, ty, false, false⟩]) rest

/-- SchemaGuard::add_columns: infer each new column's type, run all ALTER
statements in one transaction (all-or-nothing), and invalidate the cache
entry only after the transaction commits; every engine failure — the
duplicate-column condition included — becomes VibeError::Database through
the From conversion chain, with no special-casing. -/
def add_columns (s : GuardState) (t : List Char)
    (columns : List (List Char × JValue)) : Except VError Unit × GuardState :=
  let migrations := columns.map (fun p => (p.1, (infer_type p.2).as_sql))
  match alookup s.catalog t with
  | none =>
      (.error (.database ("Transaction failed: no such table: " ++ String.mk t)), s)
  | some existing =>
      match applyAlters existing migrations with
      | .error e => (.error e, s)
      | .ok newCols =>
          (.ok (),
           { s with
               catalog := ainsert s.catalog t newCols,
               cache := aremove s.cache t,
               ddl := s.ddl ++ migrations.map (fun p =>
                 "ALTER TABLE " ++ String.mk t ++ " ADD COLUMN " ++ String.mk p.1 ++
                   " " ++ p.2 ++ " DEFAULT NULL") })

/-- The key-validation loop at the top of ensure_columns: the whole request
is rejected at the first invalid key. -/
def validateAll : List (List Char) → Except VError Unit
  | [] => .ok ()
  | k :: rest =>
      match validate_identifier k with
      | .error e => .error e
      | .ok _ => validateAll rest

/-- The column-limit error message, as the format! call in ensure_columns
builds it. -/
def limitMessage (t : List Char) (c n : Nat) : String :=
  "Table " ++ String.mk t ++ " would exceed " ++ toString MAX_COLUMNS_PER_TABLE ++
    " column limit (" ++ toString c ++ " existing + " ++ toString n ++
    " new = " ++ toString (c + n) ++ ")"

/-- The HashSet of existing column names of ensure_columns, modelled as the
deduplicated name list. -/
def existingSet (schema : List ColumnInfo) : List (List Char) :=
  (schema.map ColumnInfo.name).dedup

/-- The new_columns filter of ensure_columns: keys with non-null values not
present among the existing columns. -/
def newColumnsOf (schema : List ColumnInfo)
    (fields : List (List Char × JValue)) : List (List Char × JValue) :=
  fields.filter (fun p => !p.2.is_null && !((existingSet schema).contains p.1))

/-- The insertable column list ensure_columns returns: keys with non-null
values, the system columns excluded. -/
def insertColumnsOf (fields : List (List Char × JValue)) : List (List Char) :=
  (fields.filter (fun p =>
    !p.2.is_null && !(p.1 == "id".data) && !(p.1 == "created_at".data) &&
      !(p.1 == "updated_at".data))).map Prod.fst

/-- SchemaGuard::ensure_columns from guard.rs: validate all keys, resolve
the current schema, enforce the column ceiling, add the missing columns in
one transaction, and return the insertable column names. -/
def ensure_columns (s : GuardState) (t : List Char) (payload : JValue) :
    Except VError (List (List Char)) × GuardState :=
  match payload with
  | .obj fields =>
      match validateAll (fields.map Prod.fst) with
      | .error e => (.error e, s)
      | .ok _ =>
          let r := get_table_schema s t
          let newCols := newColumnsOf r.1 fields
          if (existingSet r.1).length + newCols.length > MAX_COLUMNS_PER_TABLE then
            (.error (.columnLimitExceeded
              (limitMessage t (existingSet r.1).length newCols.length)), r.2)
          else
            match (if newCols.isEmpty then (Except.ok (), r.2)
                   else add_columns r.2 t newCols) with
            | (.error e, s2) => (.error e, s2)
            | (.ok _, s2) => (.ok (insertColumnsOf fields), s2)
  | _ => (.error (.invalidPayload "Payload must be a JSON object"), s)

/-- SchemaGuard::clear_cache. -/
def clear_cache (s : GuardState) : GuardState := { s with cache := [] }

/-- SchemaGuard::cached_tables. -/
def cached_tables (s : GuardState) : List (List Char) := s.cache.map Prod.fst

/-- Proof-side wrapper: the number of existing columns ensure_columns
counts (the HashSet cardinality). -/
def existingCount (s : GuardState) (t : List Char) : Nat :=
  (existingSet (get_table_schema s t).1).length

/-- Proof-side wrapper: the number of new columns ensure_columns counts. -/
def newCount (s : GuardState) (t : List Char)
    (fields : List (List Char × JValue)) : Nat :=
  (newColumnsOf (get_table_schema s t).1 fields).length

lemma contains_iff_mem {l : List (List Char)} {x : List Char} :
    l.contains x = true ↔ x ∈ l := by
  simp [List.contains]

lemma alookup_aremove {α : Type} (m : List (List Char × α)) (k t : List Char) :
    alookup (aremove m k) t = if t = k then none else alookup m t := by
  induction m with
  | nil => simp [aremove, alookup]
  | cons p rest ih =>
    simp only [aremove, List.filter_cons] at *
    by_cases hp : p.1 = k <;> by_cases ht : t = k <;> by_cases hpt : p.1 = t <;>
      simp_all [alookup]

lemma alookup_ainsert {α : Type} (m : List (List Char × α)) (k t : List Char) (v : α) :
    alookup (ainsert m k v) t = if k = t then some v else alookup m t := by
  rw [ainsert, alookup]
  by_cases h : k = t
  · rw [if_pos h, if_pos h]
  · rw [if_neg h, if_neg h, alookup_aremove, if_neg (fun ht => h ht.symm)]

lemma get_table_schema_frame (s : GuardState) (t : List Char) :
    (get_table_schema s t).2.catalog = s.catalog ∧ (get_table_schema s t).2.ddl = s.ddl := by
  rcases h : alookup s.cache t with _ | cached
  · simp only [get_table_schema, h]
    split <;> simp
  · simp [get_table_schema, h]

lemma ensure_columns_ok_shape {s : GuardState} {t : List Char}
    {fields : List (List Char × JValue)} {out : List (List Char)}
    (h : (ensure_columns s t (.obj fields)).1 = .ok out) :
    out = insertColumnsOf fields := by
  simp only [ensure_columns] at h
  split at h
  · cases h
  · split at h
    · cases h
    · split at h
      · cases h
      · simpa using h.symm

/-- C8: keys whose value is null are excluded both from the new-column set
and from the returned insertable column list; in particular, on a fresh
table with the base schema, a document whose only key maps to null adds no
columns, runs no DDL, and returns Ok with the empty list. -/
theorem ensure_columns_null_excluded
    (fields : List (List Char × JValue)) (p : List Char × JValue)
    (hp : p ∈ fields) (hnull : p.2.is_null = true)
    (hnodup : (fields.map Prod.fst).Nodup) :
    (∀ schema : List ColumnInfo, p.1 ∉ (newColumnsOf schema fields).map Prod.fst)
    ∧ p.1 ∉ insertColumnsOf fields
    ∧ (∀ (s : GuardState) (t : List Char) (out : List (List Char)),
        (ensure_columns s t (.obj fields)).1 = .ok out → p.1 ∉ out)
    ∧ (ensure_columns ⟨[], [("t".data, baseColumns)], []⟩ "t".data
        (.obj [("a".data, .null)])).1 = .ok []
    ∧ (ensure_columns ⟨[], [("t".data, baseColumns)], []⟩ "t".data
        (.obj [("a".data, .null)])).2.catalog = [("t".data, baseColumns)]
    ∧ (ensure_columns ⟨[], [("t".data, baseColumns)], []⟩ "t".data
        (.obj [("a".data, .null)])).2.ddl = [] := by
  have hkey : ∀ q ∈ fields, q.1 = p.1 → q = p := fun q hq hq1 =>
    List.inj_on_of_nodup_map hnodup hq hp hq1
  have hins : p.1 ∉ insertColumnsOf fields := by
    intro hmem
    obtain ⟨q, hqf, hq1⟩ := List.mem_map.mp hmem
    obtain ⟨hqmem, hqpred⟩ := List.mem_filter.mp hqf
    rw [hkey q hqmem hq1] at hqpred
    simp only [hnull, Bool.not_true, Bool.false_and] at hqpred
    cases hqpred
  refine ⟨?_, hins, ?_, by rfl, by rfl, by rfl⟩
  · intro schema hmem
    obtain ⟨q, hqf, hq1⟩ := List.mem_map.mp hmem
    obtain ⟨hqmem, hqpred⟩ := List.mem_filter.mp hqf
    rw [hkey q hqmem hq1] at hqpred
    simp only [hnull, Bool.not_true, Bool.false_and] at hqpred
    cases hqpred
  · intro s t out h
    rw [ensure_columns_ok_shape h] at *
    exact hins

/-- Witness for C8: the single-null-key document on a fresh table. -/
theorem ensure_columns_null_excluded_witness :
    ("a".data ∉ insertColumnsOf [("a".data, JValue.null)])
    ∧ (ensure_columns ⟨[], [("t".data, baseColumns)], []⟩ "t".data
        (.obj [("a".data, .null)])).1 = .ok [] :=
  ⟨(ensure_columns_null_excluded [("a".data, .null)] ("a".data, .null)
      (List.mem_cons_self _ _) rfl (by decide)).2.1,
   (ensure_columns_null_excluded [("a".data, .null)] ("a".data, .null)
      (List.mem_cons_self _ _) rfl (by decide)).2.2.2.1⟩

lemma alookup_aremove_some {α : Type} {m : List (List Char × α)} {k t : List Char}
    {v : α} (h : alookup (aremove m k) t = some v) : alookup m t = some v := by
  rw [alookup_aremove] at h
  split at h
  · cases h
  · exact h

/-- The invariant of C10: every entry present in the schema cache maps to a
non-empty column list. -/
def cacheInv (s : GuardState) : Prop :=
  ∀ t cols, alookup s.cache t = some cols → cols ≠ []

lemma cacheInv_get_table_schema {s : GuardState} (h : cacheInv s) (t : List Char) :
    cacheInv (get_table_schema s t).2 := by
  unfold get_table_schema
  rcases hc : alookup s.cache t with _ | cached
  · simp only
    split
    · exact h
    next hne =>
      intro t' cols hc'
      simp only at hc'
      rw [alookup_ainsert] at hc'
      split at hc'
      · cases hc'
        intro hnil
        rw [hnil] at hne
        simp at hne
      · exact h t' cols hc'
  · exact h

lemma cacheInv_add_columns {s : GuardState} (h : cacheInv s) (t : List Char)
    (columns : List (List Char × JValue)) : cacheInv (add_columns s t columns).2 := by
  unfold add_columns
  split
  · exact h
  · dsimp only
    split
    · exact h
    · intro t' cols hc
      simp only at hc
      exact h t' cols (alookup_aremove_some hc)

lemma cacheInv_ensure_table {s : GuardState} (h : cacheInv s) (t : List Char) :
    cacheInv (ensure_table s t).2 := by
  unfold ensure_table
  split
  · exact h
  · have hr := cacheInv_get_table_schema h t
    dsimp only
    split
    · intro t' cols hc
      simp only at hc
      exact hr t' cols (alookup_aremove_some hc)
    · exact hr

lemma cacheInv_ensure_columns {s : GuardState} (h : cacheInv s) (t : List Char)
    (payload : JValue) : cacheInv (ensure_columns s t payload).2 := by
  unfold ensure_columns
  split
  case _ fields =>
    have hr := cacheInv_get_table_schema h t
    have hadd := cacheInv_add_columns hr t
      (newColumnsOf (get_table_schema s t).1 fields)
    split
    · exact h
    · dsimp only
      split
      · exact hr
      · split
        next e s2 heq =>
          simp only
          by_cases hne : (newColumnsOf (get_table_schema s t).1 fields).isEmpty = true
          · rw [if_pos hne] at heq
            rw [Prod.mk.injEq] at heq
            cases heq.1
          · rw [if_neg hne] at heq
            have hs2 : s2 = (add_columns (get_table_schema s t).2 t
                (newColumnsOf (get_table_schema s t).1 fields)).2 := by rw [heq]
            rw [hs2]
            exact hadd
        next u s2 heq =>
          simp only
          by_cases hne : (newColumnsOf (get_table_schema s t).1 fields).isEmpty = true
          · rw [if_pos hne] at heq
            rw [Prod.mk.injEq] at heq
            rw [← heq.2]
            exact hr
          · rw [if_neg hne] at heq
            have hs2 : s2 = (add_columns (get_table_schema s t).2 t
                (newColumnsOf (get_table_schema s t).1 fields)).2 := by rw [heq]
            rw [hs2]
            exact hadd
  · exact h

lemma cacheInv_clear_cache (s : GuardState) : cacheInv (clear_cache s) := by
  intro t cols hc
  simp [clear_cache, alookup] at hc

/-- C10: every SchemaGuard operation preserves the invariant that each
cached entry maps to a non-empty column list — get_table_schema caches only
non-empty catalog fetches, ensure_table, ensure_columns and add_columns
only remove entries, and clear_cache empties the cache. -/
theorem schema_cache_nonempty_invariant (s : GuardState) (h : cacheInv s)
    (t : List Char) (payload : JValue) (columns : List (List Char × JValue)) :
    cacheInv (get_table_schema s t).2
    ∧ cacheInv (ensure_table s t).2
    ∧ cacheInv (ensure_columns s t payload).2
    ∧ cacheInv (add_columns s t columns).2
    ∧ cacheInv (clear_cache s) :=
  ⟨cacheInv_get_table_schema h t, cacheInv_ensure_table h t,
   cacheInv_ensure_columns h t payload, cacheInv_add_columns h t columns,
   cacheInv_clear_cache s⟩

/-- Witness for C10, starting from the empty state. -/
theorem schema_cache_nonempty_invariant_witness :
    cacheInv (get_table_schema ⟨[], [], []⟩ "t".data).2
    ∧ cacheInv (ensure_table ⟨[], [], []⟩ "t".data).2
    ∧ cacheInv (ensure_columns ⟨[], [], []⟩ "t".data .null).2
    ∧ cacheInv (add_columns ⟨[], [], []⟩ "t".data []).2
    ∧ cacheInv (clear_cache ⟨[], [], []⟩) :=
  schema_cache_nonempty_invariant ⟨[], [], []⟩
    (fun t cols hc => by simp [alookup] at hc) "t".data .null []

lemma applyAlters_dup {migs : List (List Char × String)} :
    ∀ {cols : List ColumnInfo},
      (∃ p ∈ migs, p.1 ∈ cols.map ColumnInfo.name) →
      ∃ msg, applyAlters cols migs = .error (.database msg) := by
  induction migs with
  | nil =>
    intro cols hdup
    rcases hdup with ⟨p, hp, -⟩
    cases hp
  | cons q rest ih =>
    intro cols hdup
    rcases q with ⟨k, ty⟩
    by_cases hq : (cols.map ColumnInfo.name).any (fun n => ciEqName n k) = true
    · exact ⟨_, by rw [applyAlters, if_pos hq]⟩
    · rcases hdup with ⟨p, hp, hpmem⟩
      rcases List.mem_cons.mp hp with rfl | hp'
      · exact absurd (List.any_eq_true.mpr ⟨k, hpmem, by simp [ciEqName]⟩) hq
      · rw [applyAlters, if_neg hq]
        exact ih ⟨p, hp', by rw [List.map_append]; exact List.mem_append_left _ hpmem⟩

/-- C1 (amended): when the ALTER batch of add_columns hits the engine's
duplicate-column condition — some requested column already exists in the
catalog — the call propagates the failure as a VibeError::Database error
(there is no distinguishable DuplicateColumn variant and no special-casing
to Ok), the transaction leaves the state untouched, and in particular the
cached schema for the table is NOT invalidated; the cache entry is removed
only when the whole batch commits. -/
theorem add_columns_duplicate_propagates (s : GuardState) (t : List Char)
    (columns : List (List Char × JValue)) (existing : List ColumnInfo)
    (hcat : alookup s.catalog t = some existing)
    (hdup : ∃ p ∈ columns, p.1 ∈ existing.map ColumnInfo.name) :
    (∃ msg, (add_columns s t columns).1 = .error (.database msg))
    ∧ (add_columns s t columns).2 = s
    ∧ alookup (add_columns s t columns).2.cache t = alookup s.cache t
    ∧ (∀ u, (add_columns s t columns).1 = .ok u →
        alookup (add_columns s t columns).2.cache t = none) := by
  have hdup' : ∃ p ∈ columns.map (fun p => (p.1, (infer_type p.2).as_sql)),
      p.1 ∈ existing.map ColumnInfo.name := by
    rcases hdup with ⟨p, hp, hpmem⟩
    exact ⟨(p.1, (infer_type p.2).as_sql), List.mem_map_of_mem _ hp, hpmem⟩
  obtain ⟨msg, hmsg⟩ := applyAlters_dup hdup'
  unfold add_columns
  rw [hcat]
  dsimp only
  rw [hmsg]
  refine ⟨⟨msg, rfl⟩, rfl, rfl, ?_⟩
  intro u hu
  cases hu

/-- A concrete state whose cache is stale: the catalog already holds column
a of table t, the cache still shows only the base columns. -/
def staleState : GuardState :=
  ⟨[("t".data, baseColumns)],
   [("t".data, baseColumns ++ [⟨"a".data, "INTEGER", false, false⟩])],
   []⟩

/-- C1 (counterexample): ensure_columns on the stale state attempts to add
column a, the engine reports the duplicate-column condition, and the claim
fails: the call returns a Database error instead of Ok, and the cached
schema entry for the table is still present (not invalidated). -/
theorem ensure_columns_duplicate_not_recovered :
    (ensure_columns staleState "t".data (.obj [("a".data, .num (.posInt 1))])).1
      = .error (.database ("Transaction failed: duplicate column name: "
          ++ String.mk "a".data))
    ∧ (ensure_columns staleState "t".data (.obj [("a".data, .num (.posInt 1))])).2.cache
      = staleState.cache
    ∧ alookup (ensure_columns staleState "t".data
        (.obj [("a".data, .num (.posInt 1))])).2.cache "t".data = some baseColumns := by
  refine ⟨rfl, rfl, rfl⟩

/-- Witness for C1 (amended) at the stale state. -/
theorem add_columns_duplicate_propagates_witness :
    (∃ msg, (add_columns staleState "t".data [("a".data, .num (.posInt 1))]).1
        = .error (.database msg))
    ∧ (add_columns staleState "t".data [("a".data, .num (.posInt 1))]).2 = staleState
    ∧ alookup (add_columns staleState "t".data
        [("a".data, .num (.posInt 1))]).2.cache "t".data = alookup staleState.cache "t".data
    ∧ (∀ u, (add_columns staleState "t".data [("a".data, .num (.posInt 1))]).1 = .ok u →
        alookup (add_columns staleState "t".data
          [("a".data, .num (.posInt 1))]).2.cache "t".data = none) :=
  add_columns_duplicate_propagates staleState "t".data [("a".data, .num (.posInt 1))]
    (baseColumns ++ [(⟨"a".data, "INTEGER", false, false⟩ : ColumnInfo)]) (by rfl)
    ⟨("a".data, .num (.posInt 1)), List.mem_cons_self _ _, by decide⟩

lemma get_table_schema_hit {s : GuardState} {t : List Char} {cached : List ColumnInfo}
    (hc : alookup s.cache t = some cached) : get_table_schema s t = (cached, s) := by
  unfold get_table_schema
  rw [hc]

lemma get_table_schema_miss_found {s : GuardState} {t : List Char}
    {cols : List ColumnInfo} (hc : alookup s.cache t = none)
    (hcat : alookup s.catalog t = some cols) (hne : cols ≠ []) :
    get_table_schema s t = (cols, { s with cache := ainsert s.cache t cols }) := by
  unfold get_table_schema
  rw [hc]
  dsimp only
  rw [show fetch_table_info s t = cols from by unfold fetch_table_info; rw [hcat]; rfl]
  rw [if_neg (by simpa using hne)]

lemma get_table_schema_miss_absent {s : GuardState} {t : List Char}
    (hc : alookup s.cache t = none) (hcat : alookup s.catalog t = none) :
    get_table_schema s t = ([], s) := by
  unfold get_table_schema
  rw [hc]
  dsimp only
  rw [show fetch_table_info s t = [] from by unfold fetch_table_info; rw [hcat]; rfl]
  simp

lemma ensure_table_of_get {s s' : GuardState} {t : List Char} {cols : List ColumnInfo}
    (hv : validate_identifier t = .ok ()) (hg : get_table_schema s t = (cols, s')) :
    ensure_table s t =
      if cols.isEmpty then
        (.ok (), { execCreateTable s' t with
          cache := aremove (execCreateTable s' t).cache t })
      else (.ok (), s') := by
  unfold ensure_table
  rw [hv]
  dsimp only
  rw [hg]

/-- C9: for a valid table name, against a catalog that never stores an empty
column list (as SQLite guarantees), ensure_table is idempotent: both calls
return Ok, the second call performs no DDL and leaves the catalog — in
particular the table's column set — exactly as after the first call. -/
theorem ensure_table_idempotent (s : GuardState) (t : List Char)
    (hv : validate_identifier t = .ok ())
    (hwf : ∀ cols, alookup s.catalog t = some cols → cols ≠ []) :
    (ensure_table s t).1 = .ok ()
    ∧ (ensure_table (ensure_table s t).2 t).1 = .ok ()
    ∧ (ensure_table (ensure_table s t).2 t).2.catalog = (ensure_table s t).2.catalog
    ∧ (ensure_table (ensure_table s t).2 t).2.ddl = (ensure_table s t).2.ddl
    ∧ alookup (ensure_table (ensure_table s t).2 t).2.catalog t
        = alookup (ensure_table s t).2.catalog t := by
  have second : ∀ (s1 : GuardState) (cols : List ColumnInfo),
      alookup s1.cache t = none → alookup s1.catalog t = some cols → cols ≠ [] →
      ensure_table s1 t = (.ok (), { s1 with cache := ainsert s1.cache t cols }) := by
    intro s1 cols h1 h2 h3
    have h := ensure_table_of_get hv (get_table_schema_miss_found h1 h2 h3)
    rwa [if_neg (by simpa using h3)] at h
  have hitOk : ∀ (s1 : GuardState) (cols : List ColumnInfo),
      alookup s1.cache t = some cols → cols ≠ [] →
      ensure_table s1 t = (.ok (), s1) := by
    intro s1 cols h1 h3
    have h := ensure_table_of_get hv (get_table_schema_hit h1)
    rwa [if_neg (by simpa using h3)] at h
  have habsent : ∀ (s1 : GuardState),
      alookup s1.cache t = none → alookup s1.catalog t = none →
      ensure_table s1 t = (.ok (),
        ⟨aremove s1.cache t, ainsert s1.catalog t baseColumns,
          s1.ddl ++ ["CREATE TABLE IF NOT EXISTS " ++ String.mk t]⟩) := by
    intro s1 h1 h2
    have h := ensure_table_of_get hv (get_table_schema_miss_absent h1 h2)
    rw [if_pos (show ([] : List ColumnInfo).isEmpty = true from rfl)] at h
    rw [show execCreateTable s1 t = ⟨s1.cache, ainsert s1.catalog t baseColumns,
        s1.ddl ++ ["CREATE TABLE IF NOT EXISTS " ++ String.mk t]⟩ from by
      unfold execCreateTable; rw [h2]] at h
    exact h
  rcases hc : alookup s.cache t with _ | cached
  · rcases hcat : alookup s.catalog t with _ | cols
    · have e1 := habsent s hc hcat
      have hc1 : alookup (aremove s.cache t) t = none := by
        rw [alookup_aremove, if_pos rfl]
      have hcat1 : alookup (ainsert s.catalog t baseColumns) t = some baseColumns := by
        rw [alookup_ainsert, if_pos rfl]
      have e2 := second ⟨aremove s.cache t, ainsert s.catalog t baseColumns,
        s.ddl ++ ["CREATE TABLE IF NOT EXISTS " ++ String.mk t]⟩ baseColumns hc1 hcat1
        (by decide)
      rw [e1]
      dsimp only
      rw [e2]
      exact ⟨rfl, rfl, rfl, rfl, rfl⟩
    · have hne := hwf cols hcat
      have e1 := second s cols hc hcat hne
      have hc1 : alookup (ainsert s.cache t cols) t = some cols := by
        rw [alookup_ainsert, if_pos rfl]
      have e2 := hitOk { s with cache := ainsert s.cache t cols } cols hc1 hne
      rw [e1]
      dsimp only
      rw [e2]
      exact ⟨rfl, rfl, rfl, rfl, rfl⟩
  · by_cases hne : cached = []
    · subst hne
      have e1 := ensure_table_of_get hv (get_table_schema_hit hc)
      rw [if_pos (show ([] : List ColumnInfo).isEmpty = true from rfl)] at e1
      rcases hcat : alookup s.catalog t with _ | cols
      · rw [show execCreateTable s t = ⟨s.cache, ainsert s.catalog t baseColumns,
            s.ddl ++ ["CREATE TABLE IF NOT EXISTS " ++ String.mk t]⟩ from by
          unfold execCreateTable; rw [hcat]] at e1
        have hc1 : alookup (aremove s.cache t) t = none := by
          rw [alookup_aremove, if_pos rfl]
        have hcat1 : alookup (ainsert s.catalog t baseColumns) t = some baseColumns := by
          rw [alookup_ainsert, if_pos rfl]
        have e2 := second ⟨aremove s.cache t, ainsert s.catalog t baseColumns,
          s.ddl ++ ["CREATE TABLE IF NOT EXISTS " ++ String.mk t]⟩ baseColumns hc1 hcat1
          (by decide)
        rw [e1]
        dsimp only
        rw [e2]
        exact ⟨rfl, rfl, rfl, rfl, rfl⟩
      · have hcne := hwf cols hcat
        rw [show execCreateTable s t = ⟨s.cache, s.catalog,
            s.ddl ++ ["CREATE TABLE IF NOT EXISTS " ++ String.mk t]⟩ from by
          unfold execCreateTable; rw [hcat]] at e1
        have hc1 : alookup (aremove s.cache t) t = none := by
          rw [alookup_aremove, if_pos rfl]
        have e2 := second ⟨aremove s.cache t, s.catalog,
          s.ddl ++ ["CREATE TABLE IF NOT EXISTS " ++ String.mk t]⟩ cols hc1 hcat hcne
        rw [e1]
        dsimp only
        rw [e2]
        exact ⟨rfl, rfl, rfl, rfl, rfl⟩
    · have e1 := hitOk s cached hc hne
      rw [e1]
      dsimp only
      rw [e1]
      exact ⟨rfl, rfl, rfl, rfl, rfl⟩

/-- Witness for C9: creating the table users twice from the empty state. -/
theorem ensure_table_idempotent_witness :
    (ensure_table ⟨[], [], []⟩ "users".data).1 = .ok ()
    ∧ (ensure_table (ensure_table ⟨[], [], []⟩ "users".data).2 "users".data).1 = .ok ()
    ∧ (ensure_table (ensure_table ⟨[], [], []⟩ "users".data).2 "users".data).2.catalog
        = (ensure_table ⟨[], [], []⟩ "users".data).2.catalog
    ∧ (ensure_table (ensure_table ⟨[], [], []⟩ "users".data).2 "users".data).2.ddl
        = (ensure_table ⟨[], [], []⟩ "users".data).2.ddl
    ∧ alookup (ensure_table (ensure_table ⟨[], [], []⟩ "users".data).2
          "users".data).2.catalog "users".data
        = alookup (ensure_table ⟨[], [], []⟩ "users".data).2.catalog "users".data :=
  ensure_table_idempotent ⟨[], [], []⟩ "users".data (by decide)
    (fun cols hc => by simp [alookup] at hc)

lemma applyAlters_error_database {migs : List (List Char × String)} :
    ∀ {cols : List ColumnInfo} {e : VError},
      applyAlters cols migs = .error e → ∃ msg, e = .database msg := by
  induction migs with
  | nil => intro cols e h; cases h
  | cons q rest ih =>
    intro cols e h
    rcases q with ⟨k, ty⟩
    rw [applyAlters] at h
    split at h
    · exact ⟨_, by cases h; rfl⟩
    · exact ih h

lemma add_columns_error_database {s : GuardState} {t : List Char}
    {columns : List (List Char × JValue)} {e : VError}
    (h : (add_columns s t columns).1 = .error e) : ∃ msg, e = .database msg := by
  unfold add_columns at h
  split at h
  · exact ⟨_, by cases h; rfl⟩
  · dsimp only at h
    split at h
    next e' heq =>
      dsimp only at h
      injection h with h'
      subst h'
      exact applyAlters_error_database heq
    next newCols heq =>
      dsimp only at h
      cases h

lemma applyAlters_ok {migs : List (List Char × String)} :
    ∀ {cols : List ColumnInfo},
      (∀ p ∈ migs, ∀ n ∈ cols.map ColumnInfo.name, ciEqName n p.1 = false) →
      (migs.map (fun p => p.1.map asciiUpper)).Nodup →
      ∃ newCols, applyAlters cols migs = .ok newCols := by
  induction migs with
  | nil => exact fun _ _ => ⟨_, rfl⟩
  | cons q rest ih =>
    intro cols hdisj hnodup
    rcases q with ⟨k, ty⟩
    have hk : ¬ (cols.map ColumnInfo.name).any (fun n => ciEqName n k) = true := by
      intro hc
      obtain ⟨n, hn, hci⟩ := List.any_eq_true.mp hc
      rw [hdisj (k, ty) (List.mem_cons_self _ _) n hn] at hci
      cases hci
    rw [applyAlters, if_neg hk]
    rw [List.map_cons] at hnodup
    have hnd := List.nodup_cons.mp hnodup
    apply ih
    · intro p hp n hn
      rw [List.map_append] at hn
      rcases List.mem_append.mp hn with hn | hn
      · exact hdisj p (List.mem_cons_of_mem _ hp) n hn
      · simp only [List.map_cons, List.map_nil, List.mem_singleton] at hn
        by_contra hci
        rw [Bool.not_eq_false] at hci
        have heq : n.map asciiUpper = p.1.map asciiUpper := by
          simpa [ciEqName] using hci
        rw [hn] at heq
        refine hnd.1 ?_
        rw [heq]
        exact List.mem_map_of_mem _ hp
    · exact hnd.2

lemma add_columns_ok {s : GuardState} {t : List Char} {cols : List ColumnInfo}
    {columns : List (List Char × JValue)}
    (hcat : alookup s.catalog t = some cols)
    (hdisj : ∀ p ∈ columns, ∀ n ∈ cols.map ColumnInfo.name, ciEqName n p.1 = false)
    (hnodup : (columns.map (fun p => p.1.map asciiUpper)).Nodup) :
    ∃ s2, add_columns s t columns = (.ok (), s2) := by
  have hdisj' : ∀ p ∈ columns.map (fun p => (p.1, (infer_type p.2).as_sql)),
      ∀ n ∈ cols.map ColumnInfo.name, ciEqName n p.1 = false := by
    intro p hp
    obtain ⟨q, hq, rfl⟩ := List.mem_map.mp hp
    exact hdisj q hq
  have hnodup' :
      ((columns.map (fun p => (p.1, (infer_type p.2).as_sql))).map
        (fun p => p.1.map asciiUpper)).Nodup := by
    rw [List.map_map]
    exact hnodup
  obtain ⟨newCols, hok⟩ := applyAlters_ok hdisj' hnodup'
  unfold add_columns
  rw [hcat]
  dsimp only
  rw [hok]
  exact ⟨_, rfl⟩

lemma ensure_columns_eval {s : GuardState} {t : List Char}
    {fields : List (List Char × JValue)}
    (hval : validateAll (fields.map Prod.fst) = .ok ()) :
    ensure_columns s t (.obj fields) =
      if (existingSet (get_table_schema s t).1).length
          + (newColumnsOf (get_table_schema s t).1 fields).length
          > MAX_COLUMNS_PER_TABLE then
        (.error (.columnLimitExceeded (limitMessage t
            (existingSet (get_table_schema s t).1).length
            (newColumnsOf (get_table_schema s t).1 fields).length)),
         (get_table_schema s t).2)
      else
        match (if (newColumnsOf (get_table_schema s t).1 fields).isEmpty
               then (Except.ok (), (get_table_schema s t).2)
               else add_columns (get_table_schema s t).2 t
                 (newColumnsOf (get_table_schema s t).1 fields)) with
        | (.error e, s2) => (.error e, s2)
        | (.ok _, s2) => (.ok (insertColumnsOf fields), s2) := by
  simp only [ensure_columns]
  rw [hval]

/-- C2: ensure_columns fails with ColumnLimitExceeded exactly when the
existing-column count plus the count of new non-null not-yet-present columns
strictly exceeds the fixed maximum of 1000; the error message names the
limit and both counts, and in that case neither the catalog nor the DDL log
changes; in particular with 998 existing columns a document introducing 3
new columns is rejected while one introducing 2 is never rejected by the
limit and, under a cache consistent with the catalog and with the new
columns genuinely new — no case-insensitive collision with an existing
column or among themselves, since SQLite compares column names
case-insensitively — succeeds. -/
theorem ensure_columns_column_limit (s : GuardState) (t : List Char)
    (fields : List (List Char × JValue))
    (hval : validateAll (fields.map Prod.fst) = .ok ()) :
    ((∃ m, (ensure_columns s t (.obj fields)).1 = .error (.columnLimitExceeded m))
       ↔ existingCount s t + newCount s t fields > MAX_COLUMNS_PER_TABLE)
    ∧ (existingCount s t + newCount s t fields > MAX_COLUMNS_PER_TABLE →
        (ensure_columns s t (.obj fields)).1 = .error (.columnLimitExceeded
          (limitMessage t (existingCount s t) (newCount s t fields)))
        ∧ (ensure_columns s t (.obj fields)).2.catalog = s.catalog
        ∧ (ensure_columns s t (.obj fields)).2.ddl = s.ddl)
    ∧ (existingCount s t = 998 → newCount s t fields = 3 →
        ∃ m, (ensure_columns s t (.obj fields)).1 = .error (.columnLimitExceeded m))
    ∧ (existingCount s t = 998 → newCount s t fields = 2 →
        ∀ m, (ensure_columns s t (.obj fields)).1 ≠ .error (.columnLimitExceeded m))
    ∧ (∀ cols, alookup s.cache t = some cols → alookup s.catalog t = some cols →
        (fields.map (fun p => p.1.map asciiUpper)).Nodup →
        (∀ p ∈ newColumnsOf cols fields, ∀ n ∈ cols.map ColumnInfo.name,
          ciEqName n p.1 = false) →
        existingCount s t + newCount s t fields ≤ MAX_COLUMNS_PER_TABLE →
        (ensure_columns s t (.obj fields)).1 = .ok (insertColumnsOf fields)) := by
  have heval := ensure_columns_eval (s := s) (t := t) hval
  have hiff : (∃ m, (ensure_columns s t (.obj fields)).1
        = .error (.columnLimitExceeded m))
      ↔ existingCount s t + newCount s t fields > MAX_COLUMNS_PER_TABLE := by
    constructor
    · rintro ⟨m, hm⟩
      by_contra hle
      have hle' : ¬ (existingSet (get_table_schema s t).1).length
          + (newColumnsOf (get_table_schema s t).1 fields).length
          > MAX_COLUMNS_PER_TABLE := hle
      rw [heval, if_neg hle'] at hm
      rcases hadd : (if (newColumnsOf (get_table_schema s t).1 fields).isEmpty
          then (Except.ok (), (get_table_schema s t).2)
          else add_columns (get_table_schema s t).2 t
            (newColumnsOf (get_table_schema s t).1 fields)) with ⟨res, s2⟩
      rw [hadd] at hm
      cases res with
      | ok u => simp at hm
      | error e =>
        dsimp only at hm
        injection hm with hm'
        by_cases hne : (newColumnsOf (get_table_schema s t).1 fields).isEmpty = true
        · rw [if_pos hne, Prod.mk.injEq] at hadd
          cases hadd.1
        · rw [if_neg hne] at hadd
          obtain ⟨msg, rfl⟩ := add_columns_error_database
            (show (add_columns (get_table_schema s t).2 t
              (newColumnsOf (get_table_schema s t).1 fields)).1 = .error e by rw [hadd])
          cases hm'
    · intro hgt
      have hgt' : (existingSet (get_table_schema s t).1).length
          + (newColumnsOf (get_table_schema s t).1 fields).length
          > MAX_COLUMNS_PER_TABLE := hgt
      exact ⟨limitMessage t (existingCount s t) (newCount s t fields),
        by rw [heval, if_pos hgt']; rfl⟩
  refine ⟨hiff, ?_, ?_, ?_, ?_⟩
  · intro hgt
    have hgt' : (existingSet (get_table_schema s t).1).length
        + (newColumnsOf (get_table_schema s t).1 fields).length
        > MAX_COLUMNS_PER_TABLE := hgt
    rw [heval, if_pos hgt']
    refine ⟨by rfl, (get_table_schema_frame s t).1, (get_table_schema_frame s t).2⟩
  · intro h998 h3
    apply hiff.mpr
    rw [h998, h3]
    decide
  · intro h998 h2 m hm
    have hgt := hiff.mp ⟨m, hm⟩
    rw [h998, h2] at hgt
    exact absurd hgt (by decide)
  · intro cols hcc hcat hnodup hci hle
    have hg := get_table_schema_hit hcc
    have hle2 : (existingSet (get_table_schema s t).1).length
        + (newColumnsOf (get_table_schema s t).1 fields).length
        ≤ MAX_COLUMNS_PER_TABLE := hle
    have hle' : ¬ (existingSet (get_table_schema s t).1).length
        + (newColumnsOf (get_table_schema s t).1 fields).length
        > MAX_COLUMNS_PER_TABLE := by omega
    rw [heval, if_neg hle']
    have hg1 : (get_table_schema s t).1 = cols := by rw [hg]
    have hg2 : (get_table_schema s t).2 = s := by rw [hg]
    by_cases hne : (newColumnsOf (get_table_schema s t).1 fields).isEmpty = true
    · rw [if_pos hne]
    · rw [if_neg hne]
      have hdisj : ∀ p ∈ newColumnsOf (get_table_schema s t).1 fields,
          ∀ n ∈ cols.map ColumnInfo.name, ciEqName n p.1 = false := by
        rw [hg1]
        exact hci
      have hnodup2 : ((newColumnsOf (get_table_schema s t).1 fields).map
          (fun p => p.1.map asciiUpper)).Nodup :=
        hnodup.sublist
          (List.Sublist.map (fun p => p.1.map asciiUpper) (List.filter_sublist fields))
      have hcat2 : alookup ((get_table_schema s t).2).catalog t = some cols := by
        rw [hg2]; exact hcat
      obtain ⟨s2, hok⟩ := add_columns_ok hcat2 hdisj hnodup2
      rw [hok]

/-- The consistent small state used in the column-limit witness. -/
def limitWitnessState : GuardState :=
  ⟨[("t".data, baseColumns)], [("t".data, baseColumns)], []⟩

/-- Witness for C2 at a consistent three-column table and a document with
one new column: the limit iff instantiates and the success case returns Ok
with the insertable list. -/
theorem ensure_columns_column_limit_witness :
    ((∃ m, (ensure_columns limitWitnessState "t".data
        (.obj [("a".data, .num (.posInt 1))])).1 = .error (.columnLimitExceeded m))
      ↔ existingCount limitWitnessState "t".data
          + newCount limitWitnessState "t".data [("a".data, .num (.posInt 1))]
          > MAX_COLUMNS_PER_TABLE)
    ∧ (ensure_columns limitWitnessState "t".data
        (.obj [("a".data, .num (.posInt 1))])).1
        = .ok (insertColumnsOf [("a".data, .num (.posInt 1))]) :=
  ⟨(ensure_columns_column_limit limitWitnessState "t".data
      [("a".data, .num (.posInt 1))] (by rfl)).1,
   (ensure_columns_column_limit limitWitnessState "t".data
      [("a".data, .num (.posInt 1))] (by rfl)).2.2.2.2 baseColumns rfl rfl
      (by decide) (by decide) (by decide)⟩

/-- The corrected engine model also captures the case-variant collision the
case-sensitive HashSet of ensure_columns lets through: on a table whose
catalog holds column id, the payload key ID counts as new, the ALTER hits
SQLite's case-insensitive duplicate check, and the call surfaces a Database
error. -/
theorem ensure_columns_case_variant_collision :
    (ensure_columns limitWitnessState "t".data
        (.obj [("ID".data, .num (.posInt 1))])).1
      = .error (.database ("Transaction failed: duplicate column name: "
          ++ String.mk "ID".data)) := by
  rfl
